import Mathlib

/-!
Verification development for the gandyn dynamic-DNS updater (main.go).

The Go program is shallowly embedded: pure string/byte manipulation is
translated directly, and the three external effects (the dig subprocess,
the provider HTTP GET and the provider HTTP PUT) are passed in as explicit
result values, so every tick of the update loop is a pure function of the
previous loop state and the results the outside world returned.
-/

/-! ## Model of Go net.ParseIP (modern, Go 1.17+ semantics)

Strings are modelled as lists of unicode scalars.  `goParseIP` follows the
dispatch of net.ParseIP: scan for the first special character; a dot sends
the whole string to the IPv4 parser, a colon to the IPv6 parser, a percent
sign (zone) is rejected.  IP addresses are 16-byte lists of Nat. -/

/-- Go digit test, as in net/parse.go: byte between ASCII 0 and 9. -/
def isDigitC (c : Char) : Bool := 48 ≤ c.toNat && c.toNat ≤ 57

/-- Numeric value of an ASCII digit. -/
def digitVal (c : Char) : Nat := c.toNat - 48

/-- Accumulator loop of Go dtoi (net/parse.go); big = 0xFFFFFF, failing once
the running value reaches it.  Returns the value and the count of consumed
characters. -/
def dtoiAux : List Char → Nat → Nat → Option (Nat × Nat)
  | [], n, i => if i = 0 then none else some (n, i)
  | c :: cs, n, i =>
    if isDigitC c then
      let m := n * 10 + digitVal c
      if 16777215 ≤ m then none else dtoiAux cs m (i + 1)
    else if i = 0 then none else some (n, i)

/-- Go dtoi: parse a decimal prefix. -/
def dtoi (s : List Char) : Option (Nat × Nat) := dtoiAux s 0 0

/-- Hexadecimal value of a character, none when not a hex digit. -/
def hexVal (c : Char) : Option Nat :=
  if 48 ≤ c.toNat ∧ c.toNat ≤ 57 then some (c.toNat - 48)
  else if 97 ≤ c.toNat ∧ c.toNat ≤ 102 then some (c.toNat - 87)
  else if 65 ≤ c.toNat ∧ c.toNat ≤ 70 then some (c.toNat - 55)
  else none

/-- Accumulator loop of Go xtoi (net/parse.go), big = 0xFFFFFF. -/
def xtoiAux : List Char → Nat → Nat → Option (Nat × Nat)
  | [], n, i => if i = 0 then none else some (n, i)
  | c :: cs, n, i =>
    match hexVal c with
    | none => if i = 0 then none else some (n, i)
    | some d =>
      let m := n * 16 + d
      if 16777215 ≤ m then none else xtoiAux cs m (i + 1)

/-- Go xtoi: parse a hexadecimal prefix. -/
def xtoi (s : List Char) : Option (Nat × Nat) := xtoiAux s 0 0

/-- One dotted-quad field of the Go IPv4 parser: a decimal value of at most
255, with leading zeros rejected (Go 1.17+).  Returns the value and the
remainder of the string. -/
def parseV4Field (s : List Char) : Option (Nat × List Char) :=
  match dtoi s with
  | none => none
  | some (n, c) =>
    if 255 < n then none
    else if 1 < c ∧ s.head? = some '0' then none
    else some (n, s.drop c)

/-- Consume a dot separator. -/
def expectDot : List Char → Option (List Char)
  | '.' :: rest => some rest
  | _ => none

/-- Go parseIPv4: exactly four fields separated by dots, nothing left over.
Returns the four bytes. -/
def parseIPv4Go (s : List Char) : Option (List Nat) := do
  let (a, s) ← parseV4Field s
  let s ← expectDot s
  let (b, s) ← parseV4Field s
  let s ← expectDot s
  let (c, s) ← parseV4Field s
  let s ← expectDot s
  let (d, s) ← parseV4Field s
  if s = [] then some [a, b, c, d] else none

/-- The 12-byte prefix Go uses to embed an IPv4 address in the 16-byte
form (v4InV6Prefix). -/
def v4Prefix : List Nat := [0, 0, 0, 0, 0, 0, 0, 0, 0, 0, 255, 255]

/-- Post-loop fixup of Go parseIPv6: expand an ellipsis, or require exactly
sixteen bytes when no ellipsis was seen. -/
def v6fix (bytes : List Nat) (ell : Option Nat) : Option (List Nat) :=
  if bytes.length < 16 then
    match ell with
    | none => none
    | some e => some (bytes.take e ++ List.replicate (16 - bytes.length) 0 ++ bytes.drop e)
  else
    match ell with
    | none => some bytes
    | some _ => none

/-- Main loop of Go parseIPv6: read 16-bit groups separated by colons, with
at most one ellipsis and an optional trailing embedded IPv4 address.  The
fuel bounds the iteration count exactly as the loop bound i < 16 does, as
each pass appends two bytes. -/
def v6loop : Nat → List Nat → Option Nat → List Char → Option (List Nat × Option Nat × List Char)
  | 0, bytes, ell, s => some (bytes, ell, s)
  | fuel + 1, bytes, ell, s =>
    if 16 ≤ bytes.length then some (bytes, ell, s)
    else
      match xtoi s with
      | none => none
      | some (n, c) =>
        if 65535 < n then none
        else if s.get? c = some '.' then
          if ell = none ∧ bytes.length ≠ 12 then none
          else if 16 < bytes.length + 4 then none
          else
            match parseIPv4Go s with
            | none => none
            | some quad => some (bytes ++ quad, ell, [])
        else
          let bytes1 := bytes ++ [n / 256, n % 256]
          let s1 := s.drop c
          if s1 = [] then some (bytes1, ell, [])
          else if s1.head? ≠ some ':' ∨ s1.length = 1 then none
          else
            let s2 := s1.drop 1
            if s2.head? = some ':' then
              if ell.isSome then none
              else if s2.drop 1 = [] then some (bytes1, some bytes1.length, [])
              else v6loop fuel bytes1 (some bytes1.length) (s2.drop 1)
            else v6loop fuel bytes1 ell s2

/-- Go parseIPv6: optional leading double colon, then the group loop, then
the ellipsis fixup; the input must be consumed entirely. -/
def parseIPv6Go (s : List Char) : Option (List Nat) :=
  if s.take 2 = [':', ':'] then
    if s.drop 2 = [] then some (List.replicate 16 0)
    else
      match v6loop 8 [] (some 0) (s.drop 2) with
      | none => none
      | some (bytes, ell, rest) => if rest = [] then v6fix bytes ell else none
  else
    match v6loop 8 [] none s with
    | none => none
    | some (bytes, ell, rest) => if rest = [] then v6fix bytes ell else none

/-- Go net.ParseIP: dispatch on the first dot, colon or percent sign. -/
def goParseIP (s : List Char) : Option (List Nat) :=
  match s.find? (fun c => c == '.' || c == ':' || c == '%') with
  | some '.' => (parseIPv4Go s).map (fun quad => v4Prefix ++ quad)
  | some ':' => parseIPv6Go s
  | _ => none

/-- Go IP.To4: a 4-byte address is returned as is; a 16-byte address is
reduced to its last four bytes when it carries the v4-mapped prefix. -/
def goTo4 (ip : List Nat) : Option (List Nat) :=
  if ip.length = 4 then some ip
  else if ip.length = 16 ∧ ip.take 10 = List.replicate 10 0
      ∧ ip.get? 10 = some 255 ∧ ip.get? 11 = some 255 then
    some (ip.drop 12)
  else none

/-! ## Model of publicIPResolver.Resolve (main.go lines 47-62) -/

/-- Result of the dig subprocess: a transport error, or the raw bytes of
its standard output. -/
inductive DigResult where
  | err (e : String)
  | out (output : List Char)
deriving DecidableEq

/-- A Go slice expression l[lo:hi]: defined only when 0 ≤ lo ≤ hi ≤ len,
otherwise the program would panic (modelled as none). -/
def goSlice (l : List Char) (lo hi : Int) : Option (List Char) :=
  if 0 ≤ lo ∧ lo ≤ hi ∧ hi ≤ (l.length : Int) then
    some ((l.take hi.toNat).drop lo.toNat)
  else none

/-- The validation phase of Resolve on the already-stripped string: Go runs
net.ParseIP and rejects a nil result or a nil To4, returning the original
string otherwise (main.go lines 57-61). -/
def checkIPv4 (stringIP : String) : Except String String :=
  match goParseIP stringIP.data with
  | none => .error "no ipv4 valid address"
  | some ip =>
    match goTo4 ip with
    | none => .error "no ipv4 valid address"
    | some _ => .ok stringIP

/-- publicIPResolver.Resolve: pass a transport error through; reject empty
output; strip the trailing byte with the slice output[0 : len-1]; validate
as IPv4.  The outer Option is panic-freedom of the slice (none = panic). -/
def Resolve : DigResult → Option (Except String String)
  | .err e => some (.error e)
  | .out output =>
    if output.length = 0 then some (.error "no ipv4 valid address")
    else (goSlice output 0 ((output.length : Int) - 1)).map (fun l => checkIPv4 ⟨l⟩)

/-! ## Model of the liveDNS record store (main.go lines 64-127) -/

/-- The JSON record shape of the liveDNS API (main.go lines 64-69). -/
structure liveDNSRecord where
  Kind : String
  Name : String
  TTL : Nat
  Values : List String
deriving DecidableEq

/-- Result of decoding an HTTP response body as a liveDNSRecord. -/
inductive DecodeResult where
  | fail (e : String)
  | record (r : liveDNSRecord)
deriving DecidableEq

/-- Result of one HTTP round trip: a transport error from the client, or a
status code together with the decoding outcome of the body. -/
inductive HTTPResult where
  | err (e : String)
  | ok (status : Nat) (body : DecodeResult)
deriving DecidableEq

/-- liveDNSConfig.Get (main.go lines 93-108): pass transport and decoding
errors through; reject a missing or empty first value; note the HTTP
status code is never inspected. -/
def liveDNSGet : HTTPResult → Except String String
  | .err e => .error e
  | .ok _ (.fail e) => .error e
  | .ok _ (.record r) =>
    match r.Values with
    | [] => .error "Invalid Record Response"
    | v :: _ => if v = "" then .error "Invalid Record Response" else .ok v

/-- The record value liveDNSConfig.Set serializes (main.go line 113):
zero Kind and Name, TTL 300, a single value. -/
def setRecord (ip : String) : liveDNSRecord :=
  { Kind := "", Name := "", TTL := 300, Values := [ip] }

/-- liveDNSConfig.Set (main.go lines 111-127): pass a transport error
through; any status other than http.StatusCreated (201) is an error
carrying the code. -/
def liveDNSSet (_ip : String) (env : HTTPResult) : Except String Unit :=
  match env with
  | .err e => .error e
  | .ok status _ =>
    if status = 201 then .ok ()
    else .error ("Unexpected Response Status Code [" ++ toString status ++ "]")

/-- A JSON value, for the field-level model of encoding/json. -/
inductive JValue where
  | str (s : String)
  | num (n : Nat)
  | arr (vs : List String)
deriving DecidableEq

/-- Field-level model of encoding/json marshalling of a liveDNSRecord with
the omitempty option on every field (main.go lines 65-68): a zero string,
a zero TTL and an empty value list are omitted from the object. -/
def jsonFields (r : liveDNSRecord) : List (String × JValue) :=
  (if r.Kind = "" then [] else [("rrset_type", JValue.str r.Kind)]) ++
  (if r.Name = "" then [] else [("rrset_name", JValue.str r.Name)]) ++
  (if r.TTL = 0 then [] else [("rrset_ttl", JValue.num r.TTL)]) ++
  (if r.Values = [] then [] else [("rrset_values", JValue.arr r.Values)])

/-! ## Model of the update loop (main.go lines 148-179)

The loop closure reads and writes the two captured variables registeredIP
and currentIP.  One tick is a pure function of that state and of the three
external results of the tick; its trace also records how often the
provider Get ran, which values were written through Set, and the log
lines emitted. -/

deriving instance DecidableEq for Except

/-- The two captured variables of the loop (main.go line 148). -/
structure LoopState where
  registeredIP : String
  currentIP : String
deriving DecidableEq

/-- The external world of one tick: the value publicip.Resolve returned,
and the HTTP outcomes the provider would give to a GET and a PUT. -/
structure TickEnv where
  resolve : Except String String
  get : HTTPResult
  put : HTTPResult
deriving DecidableEq

/-- Observable outcome of one tick. -/
structure TickTrace where
  state : LoopState
  getCalls : Nat
  setCalls : List String
  logs : List String
deriving DecidableEq

/-- One run of the loop closure (main.go lines 151-174).  Go multiple
assignment applies: a failing Resolve stores its zero string into
currentIP, a failing Get stores its zero string into registeredIP.  The
comparison and the Set call sit inside the branch taken only when
registeredIP was empty, and a successful Set does not assign currentIP to
registeredIP. -/
def loop (s : LoopState) (env : TickEnv) : TickTrace :=
  match env.resolve with
  | .error e =>
    { state := ⟨s.registeredIP, ""⟩, getCalls := 0, setCalls := [],
      logs := ["Error: failed to get pulic IP: " ++ e] }
  | .ok cur =>
    if s.registeredIP = "" then
      match liveDNSGet env.get with
      | .error e =>
        { state := ⟨"", cur⟩, getCalls := 1, setCalls := [],
          logs := ["Error: failed to to get current dyndns record: " ++ e] }
      | .ok a =>
        if a ≠ cur then
          match liveDNSSet cur env.put with
          | .error e =>
            { state := ⟨a, cur⟩, getCalls := 1, setCalls := [cur],
              logs := ["Error: updating DNS record: " ++ e] }
          | .ok _ =>
            { state := ⟨a, cur⟩, getCalls := 1, setCalls := [cur],
              logs := ["Info: updated Gandi records with IP:" ++ cur] }
        else { state := ⟨a, cur⟩, getCalls := 1, setCalls := [], logs := [] }
    else { state := ⟨s.registeredIP, cur⟩, getCalls := 0, setCalls := [], logs := [] }

/-- Iterate the loop over a list of tick environments (the for loop of
main.go lines 176-179), collecting the trace of every tick. -/
def runTraces : LoopState → List TickEnv → List TickTrace
  | _, [] => []
  | s, e :: es =>
    let t := loop s e
    t :: runTraces t.state es

/-! ## Spec-side definitions -/

/-- Modelled from the spec: the value of a decimal digit field. -/
def fieldVal (f : List Char) : Nat := f.foldl (fun n c => n * 10 + digitVal c) 0

/-- Modelled from the spec: one field of a valid dotted-quad IPv4 literal,
a nonempty all-digit string of value at most 255 without leading zeros
(hence at most three digits). -/
def validField (f : List Char) : Prop :=
  f ≠ [] ∧ f.length ≤ 3 ∧ f.all isDigitC = true ∧
    (1 < f.length → f.head? ≠ some '0') ∧ fieldVal f ≤ 255

/-- Modelled from the spec: a valid IPv4 literal string, four valid fields
separated by dots. -/
def specValidIPv4 (s : String) : Prop :=
  ∃ f1 f2 f3 f4, validField f1 ∧ validField f2 ∧ validField f3 ∧ validField f4 ∧
    s.data = f1 ++ '.' :: (f2 ++ '.' :: (f3 ++ '.' :: f4))

/-- Modelled from the spec: an HTTP success status. -/
def httpSuccess (status : Nat) : Prop := 200 ≤ status ∧ status < 300

/-! ## Helper lemmas -/

theorem goSlice_dropLast (l : List Char) (h : l ≠ []) :
    goSlice l 0 ((l.length : Int) - 1) = some l.dropLast := by
  have hlen : 0 < l.length := List.length_pos.mpr h
  have hcast : (1 : Int) ≤ (l.length : Int) := by exact_mod_cast hlen
  unfold goSlice
  rw [if_pos ⟨le_refl 0, by omega, by omega⟩]
  have htn : ((l.length : Int) - 1).toNat = l.length - 1 := by omega
  rw [htn]
  simp [List.dropLast_eq_take]

theorem liveDNSGet_ok_ne_empty (r : HTTPResult) (a : String)
    (h : liveDNSGet r = .ok a) : a ≠ "" := by
  cases r with
  | err e => simp [liveDNSGet] at h
  | ok status body =>
    cases body with
    | fail e => simp [liveDNSGet] at h
    | record rec =>
      rcases hv : rec.Values with _ | ⟨v, vs⟩
      · simp [liveDNSGet, hv] at h
      · by_cases hve : v = ""
        · simp [liveDNSGet, hv, hve] at h
        · simp only [liveDNSGet, hv, hve, if_false, if_neg hve] at h
          injection h with h
          rw [← h]
          exact hve

theorem checkIPv4_ok (t b : String) (h : checkIPv4 t = .ok b) :
    b = t ∧ goParseIP t.data ≠ none := by
  unfold checkIPv4 at h
  split at h
  next => exact absurd h (by simp)
  next ip hp =>
    split at h
    next => exact absurd h (by simp)
    next q h4 =>
      refine ⟨?_, by simp [hp]⟩
      injection h with h
      exact h.symm

theorem resolve_ok_ne_empty (dig : DigResult) (b : String)
    (h : Resolve dig = some (.ok b)) : b ≠ "" := by
  cases dig with
  | err e => simp [Resolve] at h
  | out output =>
    by_cases hl : output.length = 0
    · simp [Resolve, hl] at h
    · have hne : output ≠ [] := by
        intro hc; rw [hc] at hl; exact hl rfl
      rw [Resolve, if_neg hl, goSlice_dropLast output hne] at h
      simp only [Option.map_some', Option.some.injEq] at h
      have := checkIPv4_ok _ b h
      intro hb
      rw [hb] at this
      have hdata : (⟨output.dropLast⟩ : String).data = [] := by
        rw [← this.1]
      rw [hdata] at this
      exact this.2 rfl

theorem loop_resolve_error (s : LoopState) (env : TickEnv) (e : String)
    (h : env.resolve = .error e) :
    loop s env = ⟨⟨s.registeredIP, ""⟩, 0, [], ["Error: failed to get pulic IP: " ++ e]⟩ := by
  simp [loop, h]

theorem loop_cached (s : LoopState) (env : TickEnv) (cur : String)
    (h : env.resolve = .ok cur) (hc : s.registeredIP ≠ "") :
    loop s env = ⟨⟨s.registeredIP, cur⟩, 0, [], []⟩ := by
  simp [loop, h, hc]

theorem loop_get_error (s : LoopState) (env : TickEnv) (cur e : String)
    (h : env.resolve = .ok cur) (hc : s.registeredIP = "")
    (hg : liveDNSGet env.get = .error e) :
    loop s env = ⟨⟨"", cur⟩, 1, [],
      ["Error: failed to to get current dyndns record: " ++ e]⟩ := by
  simp [loop, h, hc, hg]

theorem loop_get_equal (s : LoopState) (env : TickEnv) (cur : String)
    (h : env.resolve = .ok cur) (hc : s.registeredIP = "")
    (hg : liveDNSGet env.get = .ok cur) :
    loop s env = ⟨⟨cur, cur⟩, 1, [], []⟩ := by
  simp [loop, h, hc, hg]

theorem loop_set_error (s : LoopState) (env : TickEnv) (cur a e : String)
    (h : env.resolve = .ok cur) (hc : s.registeredIP = "")
    (hg : liveDNSGet env.get = .ok a) (hne : a ≠ cur)
    (hs : liveDNSSet cur env.put = .error e) :
    loop s env = ⟨⟨a, cur⟩, 1, [cur], ["Error: updating DNS record: " ++ e]⟩ := by
  simp [loop, h, hc, hg, hne, hs]

theorem loop_set_ok (s : LoopState) (env : TickEnv) (cur a : String)
    (h : env.resolve = .ok cur) (hc : s.registeredIP = "")
    (hg : liveDNSGet env.get = .ok a) (hne : a ≠ cur)
    (hs : liveDNSSet cur env.put = .ok ()) :
    loop s env = ⟨⟨a, cur⟩, 1, [cur], ["Info: updated Gandi records with IP:" ++ cur]⟩ := by
  simp [loop, h, hc, hg, hne, hs]

/-! ## Claim theorems -/

/-- C1: evaluation of the loop at the claimed scenario.  With a populated
cache 1.2.3.4 and a different resolved address 1.2.3.5 the loop performs
no write call at all and keeps the cache, because the compare-and-set
block is nested inside the branch taken only when the cache is empty; and
in the one tick shape that does write (empty cache, Get returning 1.2.3.4,
resolver returning 1.2.3.5), a successful write still leaves the cache at
the Get value 1.2.3.4 rather than the written value 1.2.3.5. -/
theorem loop_stale_cache_never_writes :
    loop ⟨"1.2.3.4", "1.2.3.4"⟩
        ⟨.ok "1.2.3.5", .ok 200 (.fail ""), .ok 201 (.fail "")⟩ =
      ⟨⟨"1.2.3.4", "1.2.3.5"⟩, 0, [], []⟩ ∧
    loop ⟨"", ""⟩
        ⟨.ok "1.2.3.5", .ok 200 (.record ⟨"", "", 300, ["1.2.3.4"]⟩), .ok 201 (.fail "")⟩ =
      ⟨⟨"1.2.3.4", "1.2.3.5"⟩, 1, ["1.2.3.5"],
        ["Info: updated Gandi records with IP:1.2.3.5"]⟩ :=
  ⟨rfl, rfl⟩

/-- C2: the provider Get runs only while the cached registered address is
empty; a tick whose Get ran and succeeded leaves the cache populated with
a nonempty value; and from any populated state every later tick of any
run performs no Get and keeps the cache populated. -/
theorem get_called_only_while_cache_empty :
    (∀ s env, (loop s env).getCalls ≠ 0 → s.registeredIP = "") ∧
    (∀ s env a, liveDNSGet env.get = .ok a → (loop s env).getCalls ≠ 0 →
      (loop s env).state.registeredIP = a ∧ a ≠ "") ∧
    (∀ s envs, s.registeredIP ≠ "" →
      ((runTraces s envs).all
        fun t => t.getCalls == 0 && !(t.state.registeredIP == "")) = true) := by
  have hkeep : ∀ s env, s.registeredIP ≠ "" →
      (loop s env).getCalls = 0 ∧ (loop s env).state.registeredIP = s.registeredIP := by
    intro s env hs
    cases hres : env.resolve with
    | error e => rw [loop_resolve_error s env e hres]; exact ⟨rfl, rfl⟩
    | ok cur => rw [loop_cached s env cur hres hs]; exact ⟨rfl, rfl⟩
  refine ⟨?_, ?_, ?_⟩
  · intro s env h
    by_contra hc
    exact h (hkeep s env hc).1
  · intro s env a hget h
    have hs : s.registeredIP = "" := by
      by_contra hc
      exact h (hkeep s env hc).1
    have hane := liveDNSGet_ok_ne_empty env.get a hget
    cases hres : env.resolve with
    | error e =>
      rw [loop_resolve_error s env e hres] at h
      exact absurd rfl h
    | ok cur =>
      by_cases heq : a = cur
      · subst heq
        rw [loop_get_equal s env a hres hs hget]
        exact ⟨rfl, hane⟩
      · cases hset : liveDNSSet cur env.put with
        | error e =>
          rw [loop_set_error s env cur a e hres hs hget heq hset]
          exact ⟨rfl, hane⟩
        | ok u =>
          cases u
          rw [loop_set_ok s env cur a hres hs hget heq hset]
          exact ⟨rfl, hane⟩
  · intro s envs hs
    induction envs generalizing s with
    | nil => rfl
    | cons e es ih =>
      have hk := hkeep s e hs
      have hs2 : (loop s e).state.registeredIP ≠ "" := by rw [hk.2]; exact hs
      simp only [runTraces, List.all_cons, Bool.and_eq_true]
      refine ⟨?_, ih _ hs2⟩
      rw [hk.1, hk.2]
      simp [hs]

/-- C2 witness: a concrete two-tick run from a populated cache never calls
Get and never empties the cache. -/
theorem get_called_only_while_cache_empty_witness :
    ((runTraces ⟨"9.9.9.9", ""⟩
        [⟨.ok "1.2.3.4", .ok 200 (.fail "x"), .ok 201 (.fail "y")⟩,
         ⟨.error "timeout", .ok 200 (.fail "x"), .ok 500 (.fail "y")⟩]).all
      fun t => t.getCalls == 0 && !(t.state.registeredIP == "")) = true :=
  get_called_only_while_cache_empty.2.2 ⟨"9.9.9.9", ""⟩ _ (by decide)

/-- C3 counterexample: on a failed resolution the loop does mutate its
state: the multiple assignment stores the zero string into currentIP, so
a previously nonempty currentIP is overwritten. -/
theorem resolve_failure_overwrites_currentIP :
    (loop ⟨"5.6.7.8", "5.6.7.8"⟩
        ⟨.error "dial timeout", .ok 200 (.fail ""), .ok 201 (.fail "")⟩).setCalls = [] ∧
    (loop ⟨"5.6.7.8", "5.6.7.8"⟩
        ⟨.error "dial timeout", .ok 200 (.fail ""), .ok 201 (.fail "")⟩).state.currentIP = "" ∧
    (loop ⟨"5.6.7.8", "5.6.7.8"⟩
        ⟨.error "dial timeout", .ok 200 (.fail ""), .ok 201 (.fail "")⟩).state.currentIP ≠
      LoopState.currentIP ⟨"5.6.7.8", "5.6.7.8"⟩ := by
  decide

/-- C3 amended: on a failed resolution the loop logs the error and skips
the tick: no Get, no write, registeredIP unchanged, but currentIP is
overwritten with the empty string the failed resolver returned. -/
theorem resolve_failure_skips_write_but_clears_currentIP
    (s : LoopState) (env : TickEnv) (e : String) (h : env.resolve = .error e) :
    (loop s env).setCalls = [] ∧ (loop s env).getCalls = 0 ∧
    (loop s env).state.registeredIP = s.registeredIP ∧
    (loop s env).state.currentIP = "" ∧
    (loop s env).logs = ["Error: failed to get pulic IP: " ++ e] := by
  rw [loop_resolve_error s env e h]
  exact ⟨rfl, rfl, rfl, rfl, rfl⟩

/-- C3 witness: the amended statement at a concrete failing tick. -/
theorem resolve_failure_skips_write_but_clears_currentIP_witness :
    (loop ⟨"5.6.7.8", "1.2.3.4"⟩
        ⟨.error "timeout", .ok 200 (.fail ""), .ok 201 (.fail "")⟩).setCalls = [] ∧
    (loop ⟨"5.6.7.8", "1.2.3.4"⟩
        ⟨.error "timeout", .ok 200 (.fail ""), .ok 201 (.fail "")⟩).getCalls = 0 ∧
    (loop ⟨"5.6.7.8", "1.2.3.4"⟩
        ⟨.error "timeout", .ok 200 (.fail ""), .ok 201 (.fail "")⟩).state.registeredIP =
      LoopState.registeredIP ⟨"5.6.7.8", "1.2.3.4"⟩ ∧
    (loop ⟨"5.6.7.8", "1.2.3.4"⟩
        ⟨.error "timeout", .ok 200 (.fail ""), .ok 201 (.fail "")⟩).state.currentIP = "" ∧
    (loop ⟨"5.6.7.8", "1.2.3.4"⟩
        ⟨.error "timeout", .ok 200 (.fail ""), .ok 201 (.fail "")⟩).logs =
      ["Error: failed to get pulic IP: " ++ "timeout"] :=
  resolve_failure_skips_write_but_clears_currentIP ⟨"5.6.7.8", "1.2.3.4"⟩ _ "timeout" rfl

/-- C4 counterexample: an empty probe answer and an invalid (IPv6) answer
produce the very same error value, so the two outcomes the claim calls
NoAddressFound and InvalidAddress are not distinguishable to the caller. -/
theorem empty_and_invalid_answers_same_error :
    Resolve (.out []) = some (.error "no ipv4 valid address") ∧
    Resolve (.out ("::1\n".data)) = some (.error "no ipv4 valid address") ∧
    Resolve (.out []) = Resolve (.out ("::1\n".data)) :=
  ⟨rfl, rfl, rfl⟩

/-- C4 amended: Resolve reports two distinguishable failure outcomes, not
three: a transport failure is passed through unchanged, while an empty
answer and an answer failing IPv4 validation both yield the same error. -/
theorem resolve_two_error_outcomes (e : String) (out : List Char) (hne : out ≠ [])
    (hbad : checkIPv4 ⟨out.dropLast⟩ = .error "no ipv4 valid address") :
    Resolve (.err e) = some (.error e) ∧
    Resolve (.out []) = some (.error "no ipv4 valid address") ∧
    Resolve (.out out) = some (.error "no ipv4 valid address") := by
  refine ⟨rfl, rfl, ?_⟩
  have hl : ¬ out.length = 0 := by
    intro hc
    exact hne (List.length_eq_zero.mp hc)
  simp only [Resolve]
  rw [if_neg hl, goSlice_dropLast out hne]
  simp only [Option.map_some']
  rw [hbad]

/-- C4 witness: the amended statement at a concrete invalid answer. -/
theorem resolve_two_error_outcomes_witness :
    Resolve (.out ("x\n".data)) = some (.error "no ipv4 valid address") :=
  (resolve_two_error_outcomes "e" ("x\n".data) (by decide) rfl).2.2

/-- C5 counterexample: Get never inspects the HTTP status code, so a read
with status 500 and a decodable body counts as successful, contradicting
that a read is successful only for an HTTP success status. -/
theorem get_ignores_http_status :
    liveDNSGet (.ok 500 (.record ⟨"", "", 300, ["1.2.3.4"]⟩)) = .ok "1.2.3.4" ∧
    ¬ httpSuccess 500 :=
  ⟨rfl, by unfold httpSuccess; omega⟩

/-- C5 amended: Get returns the first value of any response whose body
decodes to a record with a nonempty first value, regardless of status;
it fails with Invalid Record Response on missing values or an empty first
value, and passes transport and decoding errors through. -/
theorem get_result_taxonomy (e : String) (status : Nat) (k nm : String) (t : Nat)
    (v : String) (vs : List String) (hv : v ≠ "") :
    liveDNSGet (.err e) = .error e ∧
    liveDNSGet (.ok status (.fail e)) = .error e ∧
    liveDNSGet (.ok status (.record ⟨k, nm, t, []⟩)) = .error "Invalid Record Response" ∧
    liveDNSGet (.ok status (.record ⟨k, nm, t, "" :: vs⟩)) = .error "Invalid Record Response" ∧
    liveDNSGet (.ok status (.record ⟨k, nm, t, v :: vs⟩)) = .ok v := by
  refine ⟨rfl, rfl, rfl, rfl, ?_⟩
  simp [liveDNSGet, hv]

/-- C5 witness: the amended statement at a concrete record. -/
theorem get_result_taxonomy_witness :
    liveDNSGet (.ok 200 (.record ⟨"", "", 300, ["1.2.3.4"]⟩)) = .ok "1.2.3.4" :=
  (get_result_taxonomy "e" 200 "" "" 300 "1.2.3.4" [] (by decide)).2.2.2.2

/-- C6: a provider write answered with any status other than created fails
with the unexpected-status error carrying that code, the loop logs it, and
the cached registered address stays at the value it held when the write
was attempted (the value Get returned in that tick). -/
theorem set_non_created_keeps_cache (s : LoopState) (env : TickEnv)
    (cur a : String) (code : Nat) (body : DecodeResult)
    (hres : env.resolve = .ok cur) (hcache : s.registeredIP = "")
    (hget : liveDNSGet env.get = .ok a) (hne : a ≠ cur)
    (hput : env.put = .ok code body) (hcode : code ≠ 201) :
    liveDNSSet cur env.put =
      .error ("Unexpected Response Status Code [" ++ toString code ++ "]") ∧
    (loop s env).state.registeredIP = a ∧
    (loop s env).logs =
      ["Error: updating DNS record: " ++
        ("Unexpected Response Status Code [" ++ toString code ++ "]")] := by
  have hset : liveDNSSet cur env.put =
      .error ("Unexpected Response Status Code [" ++ toString code ++ "]") := by
    rw [hput]
    simp [liveDNSSet, hcode]
  rw [loop_set_error s env cur a _ hres hcache hget hne hset]
  exact ⟨hset, rfl, rfl⟩

/-- C6 witness: the statement at a concrete 500 response. -/
theorem set_non_created_keeps_cache_witness :
    liveDNSSet "1.2.3.5" (HTTPResult.ok 500 (.fail "")) =
      .error ("Unexpected Response Status Code [" ++ toString 500 ++ "]") ∧
    (loop ⟨"", ""⟩ ⟨.ok "1.2.3.5", .ok 200 (.record ⟨"", "", 300, ["1.2.3.4"]⟩),
        .ok 500 (.fail "")⟩).state.registeredIP = "1.2.3.4" ∧
    (loop ⟨"", ""⟩ ⟨.ok "1.2.3.5", .ok 200 (.record ⟨"", "", 300, ["1.2.3.4"]⟩),
        .ok 500 (.fail "")⟩).logs =
      ["Error: updating DNS record: " ++
        ("Unexpected Response Status Code [" ++ toString 500 ++ "]")] :=
  set_non_created_keeps_cache ⟨"", ""⟩
    ⟨.ok "1.2.3.5", .ok 200 (.record ⟨"", "", 300, ["1.2.3.4"]⟩), .ok 500 (.fail "")⟩
    "1.2.3.5" "1.2.3.4" 500 (.fail "")
    rfl rfl rfl (by decide) rfl (by decide)

/-- C8: a tick whose cached registered address equals the freshly resolved
address performs no write: either the cache already held that (necessarily
nonempty) resolver value at tick start, or the cache was empty and the Get
of the same tick returned exactly the resolved value. -/
theorem equal_addresses_no_write :
    (∀ (s : LoopState) (env : TickEnv) (dig : DigResult) (b : String),
      Resolve dig = some env.resolve → env.resolve = .ok b →
      s.registeredIP = b → (loop s env).setCalls = []) ∧
    (∀ (s : LoopState) (env : TickEnv) (b : String),
      env.resolve = .ok b → s.registeredIP = "" →
      liveDNSGet env.get = .ok b → (loop s env).setCalls = []) := by
  constructor
  · intro s env dig b hdig hres hcache
    have hbne : b ≠ "" := resolve_ok_ne_empty dig b (by rw [hdig, hres])
    have hcne : s.registeredIP ≠ "" := by rw [hcache]; exact hbne
    rw [loop_cached s env b hres hcne]
  · intro s env b hres hcache hget
    rw [loop_get_equal s env b hres hcache hget]

/-- C8 witness: with the cache already holding the address the resolver
actually produced, a concrete tick performs no write. -/
theorem equal_addresses_no_write_witness :
    (loop ⟨"1.2.3.4", ""⟩
        ⟨.ok "1.2.3.4", .ok 200 (.fail ""), .ok 201 (.fail "")⟩).setCalls = [] :=
  equal_addresses_no_write.1 ⟨"1.2.3.4", ""⟩ _ (.out ("1.2.3.4\n".data)) "1.2.3.4"
    rfl rfl rfl

/-- C9: the record Set serializes carries a TTL of exactly 300 and the
single-element value list containing the given address; under the
omitempty JSON encoding exactly those two fields are emitted. -/
theorem set_payload_ttl300_single_value (ip : String) :
    jsonFields (setRecord ip) =
      [("rrset_ttl", JValue.num 300), ("rrset_values", JValue.arr [ip])] ∧
    (setRecord ip).TTL = 300 ∧ (setRecord ip).Values = [ip] := by
  refine ⟨?_, rfl, rfl⟩
  simp [jsonFields, setRecord]

/-- C10: Resolve never panics on its slice expression: for every dig
result it yields a value; for nonempty output the slice output[0:len-1]
is in bounds and strips exactly the one trailing byte; and a one-byte
output leaves the empty string, reported as the invalid-address error. -/
theorem resolve_slice_always_in_bounds :
    (∀ r, (Resolve r).isSome = true) ∧
    (∀ output : List Char, output ≠ [] →
      goSlice output 0 ((output.length : Int) - 1) = some output.dropLast ∧
      output.dropLast.length = output.length - 1) ∧
    (∀ c : Char, Resolve (.out [c]) = some (.error "no ipv4 valid address")) := by
  refine ⟨?_, ?_, ?_⟩
  · intro r
    cases r with
    | err e => rfl
    | out output =>
      by_cases hl : output.length = 0
      · simp [Resolve, hl]
      · have hne : output ≠ [] := fun hc => hl (by rw [hc]; rfl)
        simp only [Resolve]
        rw [if_neg hl, goSlice_dropLast output hne]
        rfl
  · intro output hne
    exact ⟨goSlice_dropLast output hne, List.length_dropLast output⟩
  · intro c
    rfl

/-- C10 witness: the slice fact at a concrete output and the one-byte case
at a concrete newline output. -/
theorem resolve_slice_always_in_bounds_witness :
    goSlice ("ab\n".data) 0 ((("ab\n".data).length : Int) - 1) =
      some (("ab\n".data).dropLast) ∧
    Resolve (.out ['\n']) = some (.error "no ipv4 valid address") :=
  ⟨(resolve_slice_always_in_bounds.2.1 ("ab\n".data) (by decide)).1,
   resolve_slice_always_in_bounds.2.2 '\n'⟩

/-! ## Lemmas for the IPv4 parsing claim -/

theorem foldl_step_le (f : List Char) (m : Nat) :
    m ≤ List.foldl (fun n c => n * 10 + digitVal c) m f := by
  induction f generalizing m with
  | nil => simp
  | cons a f ih =>
    rw [List.foldl_cons]
    exact le_trans (by omega) (ih (m * 10 + digitVal a))

theorem dtoiAux_digits (f : List Char) : ∀ (rest : List Char) (n i : Nat),
    f.all isDigitC = true →
    (∀ c, rest.head? = some c → isDigitC c = false) →
    List.foldl (fun m c => m * 10 + digitVal c) n f < 16777215 →
    i + f.length ≠ 0 →
    dtoiAux (f ++ rest) n i =
      some (List.foldl (fun m c => m * 10 + digitVal c) n f, i + f.length) := by
  induction f with
  | nil =>
    intro rest n i _ hrest _ hi
    simp only [List.length_nil, Nat.add_zero] at hi
    cases rest with
    | nil => simp [dtoiAux, hi]
    | cons r rs => simp [dtoiAux, hrest r rfl, hi]
  | cons a f ih =>
    intro rest n i hdig hrest hlt hi
    simp only [List.all_cons, Bool.and_eq_true] at hdig
    rw [List.foldl_cons] at hlt
    have hmono := foldl_step_le f (n * 10 + digitVal a)
    have hbig : ¬ 16777215 ≤ n * 10 + digitVal a := by omega
    have heq : dtoiAux ((a :: f) ++ rest) n i
        = dtoiAux (f ++ rest) (n * 10 + digitVal a) (i + 1) := by
      simp [dtoiAux, hdig.1, hbig]
    rw [List.foldl_cons, List.length_cons, heq,
      ih rest (n * 10 + digitVal a) (i + 1) hdig.2 hrest hlt (by omega),
      (by omega : i + 1 + f.length = i + (f.length + 1))]

theorem dtoi_field (f rest : List Char) (hne : f ≠ [])
    (hdig : f.all isDigitC = true) (hval : fieldVal f ≤ 255)
    (hrest : ∀ c, rest.head? = some c → isDigitC c = false) :
    dtoi (f ++ rest) = some (fieldVal f, f.length) := by
  have hlen : f.length ≠ 0 := fun hc => hne (List.length_eq_zero.mp hc)
  have h := dtoiAux_digits f rest 0 0 hdig hrest
    (by unfold fieldVal at hval; omega) (by omega)
  simpa [dtoi, fieldVal] using h

theorem parseV4Field_field (f rest : List Char) (hf : validField f)
    (hrest : ∀ c, rest.head? = some c → isDigitC c = false) :
    parseV4Field (f ++ rest) = some (fieldVal f, rest) := by
  obtain ⟨hne, hlen3, hdig, hzero, hval⟩ := hf
  have hz : ¬ (1 < f.length ∧ (f ++ rest).head? = some '0') := by
    rintro ⟨hgt, hhead⟩
    rcases f with _ | ⟨a, f'⟩
    · exact hne rfl
    · simp only [List.cons_append, List.head?_cons, Option.some.injEq] at hhead
      exact (hzero hgt) (by rw [List.head?_cons, hhead])
  unfold parseV4Field
  rw [dtoi_field f rest hne hdig hval hrest]
  show (if 255 < fieldVal f then none
      else if 1 < f.length ∧ (f ++ rest).head? = some '0' then none
      else some (fieldVal f, (f ++ rest).drop f.length)) = some (fieldVal f, rest)
  rw [if_neg (by omega), if_neg hz, List.drop_left]

theorem parseIPv4Go_fields (f1 f2 f3 f4 : List Char)
    (h1 : validField f1) (h2 : validField f2) (h3 : validField f3) (h4 : validField f4) :
    parseIPv4Go (f1 ++ '.' :: (f2 ++ '.' :: (f3 ++ '.' :: f4))) =
      some [fieldVal f1, fieldVal f2, fieldVal f3, fieldVal f4] := by
  have hdot : ∀ (tail : List Char), ∀ c, ('.' :: tail).head? = some c → isDigitC c = false := by
    intro tail c hc
    simp only [List.head?_cons, Option.some.injEq] at hc
    rw [← hc]
    decide
  have e1 := parseV4Field_field f1 ('.' :: (f2 ++ '.' :: (f3 ++ '.' :: f4))) h1 (hdot _)
  have e2 := parseV4Field_field f2 ('.' :: (f3 ++ '.' :: f4)) h2 (hdot _)
  have e3 := parseV4Field_field f3 ('.' :: f4) h3 (hdot _)
  have e4 : parseV4Field f4 = some (fieldVal f4, []) := by
    have := parseV4Field_field f4 [] h4 (by intro c hc; simp at hc)
    simpa using this
  simp [parseIPv4Go, e1, e2, e3, e4, expectDot]

theorem digit_not_special (c : Char) (h : isDigitC c = true) :
    (c == '.' || c == ':' || c == '%') = false := by
  by_cases h1 : c = '.'
  · exact absurd (h1 ▸ h) (by decide)
  · by_cases h2 : c = ':'
    · exact absurd (h2 ▸ h) (by decide)
    · by_cases h3 : c = '%'
      · exact absurd (h3 ▸ h) (by decide)
      · simp [h1, h2, h3]

theorem find_special_digits (f r : List Char) (hdig : f.all isDigitC = true) :
    (f ++ '.' :: r).find? (fun c => c == '.' || c == ':' || c == '%') = some '.' := by
  induction f with
  | nil => simp [List.find?]
  | cons a f ih =>
    simp only [List.all_cons, Bool.and_eq_true] at hdig
    simp only [List.cons_append, List.find?, digit_not_special a hdig.1]
    exact ih hdig.2

theorem goTo4_v4Prefix (a b c d : Nat) :
    goTo4 (v4Prefix ++ [a, b, c, d]) = some [a, b, c, d] := rfl

theorem checkIPv4_valid (s : String) (h : specValidIPv4 s) :
    checkIPv4 s = .ok s := by
  obtain ⟨f1, f2, f3, f4, h1, h2, h3, h4, heq⟩ := h
  simp only [checkIPv4, goParseIP, heq,
    find_special_digits f1 (f2 ++ '.' :: (f3 ++ '.' :: f4)) h1.2.2.1,
    parseIPv4Go_fields f1 f2 f3 f4 h1 h2 h3 h4,
    Option.map_some', goTo4_v4Prefix]

theorem Resolve_valid (s : String) (h : specValidIPv4 s) :
    Resolve (.out (s.data ++ ['\n'])) = some (.ok s) := by
  have hne : s.data ++ ['\n'] ≠ [] := by simp
  have hl : ¬ (s.data ++ ['\n']).length = 0 := by simp
  simp only [Resolve]
  rw [if_neg hl, goSlice_dropLast _ hne, List.dropLast_concat]
  simp only [Option.map_some']
  have hs : (⟨s.data⟩ : String) = s := rfl
  rw [hs, checkIPv4_valid s h]

/-- C7 counterexample: the string ::ffff:1.2.3.4 is an IPv6 literal and
not a valid dotted-quad IPv4 literal, yet Resolve accepts it and returns
it, because Go To4 is non-nil on the v4-mapped 16-byte form. -/
theorem resolve_accepts_v4_mapped_ipv6 :
    Resolve (.out ("::ffff:1.2.3.4\n".data)) = some (.ok "::ffff:1.2.3.4") ∧
    ¬ specValidIPv4 "::ffff:1.2.3.4" := by
  constructor
  · rfl
  · rintro ⟨f1, f2, f3, f4, h1, -, -, -, heq⟩
    rcases f1 with _ | ⟨a, f1'⟩
    · exact h1.1 rfl
    · have hlit : List.head? ("::ffff:1.2.3.4".data) = some ':' := rfl
      have hh := congrArg List.head? heq
      rw [hlit] at hh
      simp only [List.cons_append, List.head?_cons] at hh
      injection hh with hh
      have hd : isDigitC a = true := by
        have hall := h1.2.2.1
        simp only [List.all_cons, Bool.and_eq_true] at hall
        exact hall.1
      rw [← hh] at hd
      exact absurd hd (by decide)

/-- C7 amended: every valid dotted-quad IPv4 literal resolves to itself;
every string on which Go ParseIP fails or yields an address whose To4 is
nil (non-IP strings, and IPv6 literals other than v4-mapped ones) yields
the invalid-address error; but a v4-mapped IPv6 literal such as
::ffff:1.2.3.4 is accepted and returned verbatim. -/
theorem resolve_parse_amended :
    (∀ s : String, specValidIPv4 s → Resolve (.out (s.data ++ ['\n'])) = some (.ok s)) ∧
    (∀ s : String,
      (goParseIP s.data = none ∨ ∃ ip, goParseIP s.data = some ip ∧ goTo4 ip = none) →
      Resolve (.out (s.data ++ ['\n'])) = some (.error "no ipv4 valid address")) ∧
    Resolve (.out ("::ffff:1.2.3.4\n".data)) = some (.ok "::ffff:1.2.3.4") := by
  refine ⟨Resolve_valid, ?_, rfl⟩
  intro s h
  have hne : s.data ++ ['\n'] ≠ [] := by simp
  have hl : ¬ (s.data ++ ['\n']).length = 0 := by simp
  simp only [Resolve]
  rw [if_neg hl, goSlice_dropLast _ hne, List.dropLast_concat]
  simp only [Option.map_some']
  have hs : (⟨s.data⟩ : String) = s := rfl
  rw [hs]
  unfold checkIPv4
  rcases h with hnone | ⟨ip, hip, h4⟩
  · rw [hnone]
  · simp only [hip, h4]

/-- C7 witness: the amended positive branch at the concrete literal
1.2.3.4. -/
theorem resolve_parse_amended_witness :
    Resolve (.out ("1.2.3.4".data ++ ['\n'])) = some (.ok "1.2.3.4") :=
  resolve_parse_amended.1 "1.2.3.4"
    ⟨['1'], ['2'], ['3'], ['4'],
      by unfold validField fieldVal; decide, by unfold validField fieldVal; decide,
      by unfold validField fieldVal; decide, by unfold validField fieldVal; decide,
      by decide⟩
